import Mathlib

/-!
Verification of the HTML-to-JSX conversion core of the Web-To-React repository
(`src/converters/convertHTMLtoJSX.js`).

The converter is a callback-driven pass over the event stream of an
off-the-shelf SAX-style HTML tokenizer (htmlparser2).  Following the system
design, the tokenizer is an external collaborator: the embedding takes the
event stream (open tag, text, close tag, comment) as input and models the
converter's callbacks, its module-level mutable state, and the final
regex clean-up passes, character by character, after the JavaScript source.

JavaScript string primitives (`split`, `trim`, `replace`, `startsWith`,
regular-expression scans with the semantics of `String.prototype.replace`
with a global pattern) are modelled as executable functions on `List Char`.
-/

/-- One character of the JavaScript `\s` class (the forms that occur in
HTML text: space, tab, newline, carriage return, vertical tab, form feed). -/
def isJsSpace (c : Char) : Bool :=
  c == ' ' || c == '\t' || c == '\n' || c == '\r' || c == '\x0b' || c == '\x0c'

/-- The test `leadsWith pat s` holds when `pat` is an initial run of `s`
(models `String.prototype.startsWith` on character lists). -/
def leadsWith : List Char → List Char → Bool
  | [], _ => true
  | _ :: _, [] => false
  | p :: ps, c :: cs => p == c && leadsWith ps cs

/-- Models `s.startsWith(pat)`. -/
def jsStartsWith (s pat : String) : Bool := leadsWith pat.data s.data

/-- Models `s.endsWith(pat)`. -/
def jsEndsWith (s pat : String) : Bool := leadsWith pat.data.reverse s.data.reverse

/-- The test `hasSub sub s`: `sub` occurs somewhere in `s` (models `s.includes(sub)`). -/
def hasSub (sub : List Char) : List Char → Bool
  | [] => leadsWith sub []
  | c :: cs => leadsWith sub (c :: cs) || hasSub sub cs

/-- Models `s.includes(pat)`. -/
def jsIncludes (s pat : String) : Bool := hasSub pat.data s.data

/-- Whether the character `c` occurs in `s`. -/
def hasChar (c : Char) (s : String) : Bool := s.data.contains c

/-- Models `s.toLowerCase()` (ASCII, which is all the converter relies on). -/
def lowerStr (s : String) : String := String.mk (s.data.map Char.toLower)

/-- Models `s.trim()`. -/
def jsTrim (s : String) : String :=
  String.mk (((s.data.dropWhile isJsSpace).reverse.dropWhile isJsSpace).reverse)

/-- Worker for `jsSplit`: scans for the separator, consuming fuel. -/
def jsSplitGo (sep : List Char) : Nat → List Char → List Char → List (List Char)
  | 0, cur, rest => [cur.reverse ++ rest]
  | _ + 1, cur, [] => [cur.reverse]
  | n + 1, cur, c :: cs =>
    if leadsWith sep (c :: cs) then
      cur.reverse :: jsSplitGo sep n [] ((c :: cs).drop sep.length)
    else
      jsSplitGo sep n (c :: cur) cs

/-- Models `s.split(sep)` for a non-empty separator. -/
def jsSplit (sep s : String) : List String :=
  (jsSplitGo sep.data s.data.length [] s.data).map String.mk

/-- Worker for `jsReplaceAll`. -/
def jsReplaceGo (pat repl : List Char) : Nat → List Char → List Char
  | 0, rest => rest
  | _ + 1, [] => []
  | n + 1, c :: cs =>
    if leadsWith pat (c :: cs) then
      repl ++ jsReplaceGo pat repl n ((c :: cs).drop pat.length)
    else
      c :: jsReplaceGo pat repl n cs

/-- Models `s.replace(pat, repl)` with a global literal pattern
(e.g. `value.replace(/"/g, '&quot;')`). -/
def jsReplaceAll (pat repl s : String) : String :=
  String.mk (jsReplaceGo pat.data repl.data s.data.length s.data)

/-- Models `part.charAt(0).toUpperCase() + part.slice(1)`. -/
def capitalizeFirst (s : String) : String :=
  match s.data with
  | [] => ""
  | c :: cs => String.mk (c.toUpper :: cs)

/-- Models `part.charAt(0).toUpperCase() + part.slice(1).toLowerCase()`. -/
def capFirstLowerRest (s : String) : String :=
  match s.data with
  | [] => ""
  | c :: cs => String.mk (c.toUpper :: cs.map Char.toLower)

/-- Models `Array.prototype.join(sep)`. -/
def joinSep (sep : String) : List String → String
  | [] => ""
  | [x] => x
  | x :: xs => x ++ sep ++ joinSep sep xs

/-- The last element of a split result (models `parts.pop()` on the non-empty
array returned by `split`). -/
def lastElem : List String → String
  | [] => ""
  | [x] => x
  | _ :: xs => lastElem xs

/-- Models the global replacement of `hyphen([a-z])` by the upper-cased letter,
`s.replace(re, (_, c) => c.toUpperCase())`, used both for style properties and
for hyphenated attribute names. -/
def camelHyphenGo : List Char → List Char
  | [] => []
  | '-' :: c :: rest =>
    if c.isLower then c.toUpper :: camelHyphenGo rest
    else '-' :: camelHyphenGo (c :: rest)
  | c :: rest => c :: camelHyphenGo rest

/-- Hyphen-to-camelCase conversion on strings. -/
def camelCaseHyphen (s : String) : String := String.mk (camelHyphenGo s.data)

/-- Models assignment `m[k] = v` on a JavaScript object / `Map.prototype.set`:
an existing key keeps its position and gets the new value, a new key is
appended (insertion order). -/
def assocSet {β : Type} : List (String × β) → String → β → List (String × β)
  | [], k, v => [(k, v)]
  | (k2, v2) :: rest, k, v =>
    if k2 == k then (k2, v) :: rest else (k2, v2) :: assocSet rest k v

/-- Models a truthiness-guarded object lookup `m[k]` (an absent key and an
empty-string value are both falsy). -/
def truthyLookup (m : List (String × String)) (k : String) : Option String :=
  match m.lookup k with
  | some v => if v == "" then none else some v
  | none => none

/-! ## Static tables of the converter module -/

/-- HTML attribute → JSX attribute rename table, as declared at the top of the
module (`attributeRenameMap` before the SVG additions). -/
def attributeRenameMapBase : List (String × String) := [
  ("class", "className"),
  ("for", "htmlFor"),
  ("readonly", "readOnly"),
  ("maxlength", "maxLength"),
  ("tabindex", "tabIndex"),
  ("colspan", "colSpan"),
  ("rowspan", "rowSpan"),
  ("contenteditable", "contentEditable"),
  ("autocomplete", "autoComplete"),
  ("autofocus", "autoFocus"),
  ("autoplay", "autoPlay"),
  ("srcset", "srcSet"),
  ("crossorigin", "crossOrigin"),
  ("enctype", "encType"),
  ("novalidate", "noValidate"),
  ("usemap", "useMap"),
  ("viewbox", "viewBox"),
  ("preserveaspectratio", "preserveAspectRatio"),
  ("fill-rule", "fillRule"),
  ("clip-rule", "clipRule"),
  ("fill-opacity", "fillOpacity"),
  ("stroke-width", "strokeWidth"),
  ("stroke-linecap", "strokeLinecap"),
  ("stroke-linejoin", "strokeLinejoin"),
  ("stroke-dasharray", "strokeDasharray"),
  ("stroke-dashoffset", "strokeDashoffset"),
  ("stroke-opacity", "strokeOpacity"),
  ("spellcheck", "spellCheck"),
  ("datetime", "dateTime"),
  ("acceptcharset", "acceptCharset"),
  ("allowfullscreen", "allowFullScreen"),
  ("inputmode", "inputMode"),
  ("hreflang", "hrefLang"),
  ("referrerpolicy", "referrerPolicy")]

/-- The additional SVG attribute table (`svgAttributes`), merged into
`attributeRenameMap` at module load. -/
def svgAttributes : List (String × String) := [
  ("accent-height", "accentHeight"),
  ("alignment-baseline", "alignmentBaseline"),
  ("arabic-form", "arabicForm"),
  ("baseline-shift", "baselineShift"),
  ("cap-height", "capHeight"),
  ("clip-path", "clipPath"),
  ("color-interpolation", "colorInterpolation"),
  ("color-interpolation-filters", "colorInterpolationFilters"),
  ("color-profile", "colorProfile"),
  ("color-rendering", "colorRendering"),
  ("dominant-baseline", "dominantBaseline"),
  ("enable-background", "enableBackground"),
  ("flood-color", "floodColor"),
  ("flood-opacity", "floodOpacity"),
  ("font-family", "fontFamily"),
  ("font-size", "fontSize"),
  ("font-size-adjust", "fontSizeAdjust"),
  ("font-stretch", "fontStretch"),
  ("font-style", "fontStyle"),
  ("font-variant", "fontVariant"),
  ("font-weight", "fontWeight"),
  ("glyph-name", "glyphName"),
  ("glyph-orientation-horizontal", "glyphOrientationHorizontal"),
  ("glyph-orientation-vertical", "glyphOrientationVertical"),
  ("horiz-adv-x", "horizAdvX"),
  ("horiz-origin-x", "horizOriginX"),
  ("image-rendering", "imageRendering"),
  ("letter-spacing", "letterSpacing"),
  ("lighting-color", "lightingColor"),
  ("marker-end", "markerEnd"),
  ("marker-mid", "markerMid"),
  ("marker-start", "markerStart"),
  ("overline-position", "overlinePosition"),
  ("overline-thickness", "overlineThickness"),
  ("paint-order", "paintOrder"),
  ("panose-1", "panose1"),
  ("pointer-events", "pointerEvents"),
  ("rendering-intent", "renderingIntent"),
  ("shape-rendering", "shapeRendering"),
  ("stop-color", "stopColor"),
  ("stop-opacity", "stopOpacity"),
  ("strikethrough-position", "strikethroughPosition"),
  ("strikethrough-thickness", "strikethroughThickness"),
  ("stroke-dasharray", "strokeDasharray"),
  ("stroke-dashoffset", "strokeDashoffset"),
  ("stroke-linecap", "strokeLinecap"),
  ("stroke-linejoin", "strokeLinejoin"),
  ("stroke-miterlimit", "strokeMiterlimit"),
  ("stroke-opacity", "strokeOpacity"),
  ("stroke-width", "strokeWidth"),
  ("text-anchor", "textAnchor"),
  ("text-decoration", "textDecoration"),
  ("text-rendering", "textRendering"),
  ("underline-position", "underlinePosition"),
  ("underline-thickness", "underlineThickness"),
  ("unicode-bidi", "unicodeBidi"),
  ("unicode-range", "unicodeRange"),
  ("units-per-em", "unitsPerEm"),
  ("v-alphabetic", "vAlphabetic"),
  ("v-hanging", "vHanging"),
  ("v-ideographic", "vIdeographic"),
  ("v-mathematical", "vMathematical"),
  ("vector-effect", "vectorEffect"),
  ("vert-adv-y", "vertAdvY"),
  ("vert-origin-x", "vertOriginX"),
  ("vert-origin-y", "vertOriginY"),
  ("word-spacing", "wordSpacing"),
  ("writing-mode", "writingMode"),
  ("x-height", "xHeight"),
  ("xlink:actuate", "xlinkActuate"),
  ("xlink:arcrole", "xlinkArcrole"),
  ("xlink:href", "xlinkHref"),
  ("xlink:role", "xlinkRole"),
  ("xlink:show", "xlinkShow"),
  ("xlink:title", "xlinkTitle"),
  ("xlink:type", "xlinkType"),
  ("xml:base", "xmlBase"),
  ("xml:lang", "xmlLang"),
  ("xml:space", "xmlSpace")]

/-- The effective rename table after
`Object.entries(svgAttributes).forEach(([k, v]) => { attributeRenameMap[k] = v })`. -/
def attributeRenameMap : List (String × String) :=
  svgAttributes.foldl (fun m kv => assocSet m kv.1 kv.2) attributeRenameMapBase

/-- The `booleanAttributes` set, in insertion order. -/
def booleanAttributes : List String := [
  "disabled", "checked", "readonly", "required",
  "autofocus", "selected", "multiple", "novalidate",
  "allowfullscreen", "autoplay", "controls", "loop",
  "muted", "playsinline", "default", "ismap",
  "reversed", "async", "defer", "nomodule",
  "spellcheck", "autocomplete", "translate", "contenteditable"]

/-- The `selfClosingTags` set. -/
def selfClosingTags : List String := [
  "area", "base", "br", "col", "embed",
  "hr", "img", "input", "keygen", "link",
  "meta", "param", "source", "track", "wbr"]

/-- The `skipTags` set declared inside `convertHTMLtoJSX`. -/
def skipTags : List String := ["html", "head", "script", "noscript", "iframe"]

/-! ## Small helpers of the module -/

/-- The helper `toJSXEventName`: `attr.replace(re_on_lower, (_, c) => uppercase)` with the
anchored pattern `on` followed by one lowercase letter. -/
def toJSXEventName (attr : String) : String :=
  match attr.data with
  | 'o' :: 'n' :: c :: rest =>
    if c.isLower then String.mk ('o' :: 'n' :: c.toUpper :: rest) else attr
  | _ => attr

/-- The helper `isBooleanValue`: whether the lower-cased value is one of
`true`, `false`, or the empty string. -/
def isBooleanValue (value : String) : Bool :=
  let lower := lowerStr value
  lower == "true" || lower == "false" || lower == ""

/-- The helper `escapeJSXText`: sequentially escape ampersand (first), then angle
brackets, for JSX text output. -/
def escapeJSXText (text : String) : String :=
  jsReplaceAll ">" "&gt;" (jsReplaceAll "<" "&lt;" (jsReplaceAll "&" "&amp;" text))

/-- One processed declaration of `convertStyle`'s loop body: either a regular
camel-cased JS style entry or a CSS custom property. -/
def convertStyleStep (acc : List String × List (String × String)) (decl : String) :
    List String × List (String × String) :=
  let parts := jsSplit ":" decl
  let propRaw := parts.getD 0 ""
  let valueRaw := parts.getD 1 ""
  if propRaw == "" || parts.length < 2 || valueRaw == "" then acc
  else
    let prop := jsTrim propRaw
    let value := jsTrim valueRaw
    if prop == "" || value == "" then acc
    else if jsStartsWith prop "--" then (acc.1, assocSet acc.2 prop value)
    else
      let jsProp := camelCaseHyphen prop
      let entry :=
        if jsIncludes value "url(" && jsIncludes value "\x27" then
          jsProp ++ ": \"" ++ value ++ "\""
        else
          jsProp ++ ": \x27" ++ value ++ "\x27"
      (acc.1 ++ [entry], acc.2)

/-- The function `convertStyle`: split the inline style on `;`, camel-case regular
declarations into a JS object literal string, divert `--` custom properties
into a separate map. -/
def convertStyle (styleString : String) : Option String × List (String × String) :=
  let (jsStyles, cssVars) := (jsSplit ";" styleString).foldl convertStyleStep ([], [])
  (if jsStyles.length > 0 then
      some ("\x7b\x7b " ++ joinSep ", " jsStyles ++ " \x7d\x7d")
    else none,
   cssVars)

/-! ## Process-wide mutable state of the module -/

/-- The module-level mutable state of `convertHTMLtoJSX.js`:
`customClassCounter`, `cssVarMap`, `imageImportsMap` (a `Map`, modelled in
insertion order) and the caller-supplied `sanitizedFilenameMap`. -/
structure GState where
  customClassCounter : Nat
  cssVarMap : List (String × List (String × String))
  imageImportsMap : List (String × String)
  sanitizedFilenameMap : List (String × String)
deriving DecidableEq, Repr

/-! ## Image path resolution -/

/-- Image file extensions recognised by the converter. -/
def imageExts : List String := ["svg", "png", "jpg", "jpeg", "gif", "webp", "avif"]

/-- The case-insensitive test for a trailing image extension. -/
def isImageFile (f : String) : Bool :=
  imageExts.any (fun e => jsEndsWith (lowerStr f) ("." ++ e))

/-- The first step of `generateImageImportName`: remove a trailing image extension
(case-insensitively), keeping the rest of the filename unchanged. -/
def stripImageExt (f : String) : String :=
  match imageExts.find? (fun e => jsEndsWith (lowerStr f) ("." ++ e)) with
  | some e => String.mk (f.data.take (f.data.length - (e.length + 1)))
  | none => f

/-- The function `generateImageImportName`: strip the extension, split the sanitized
filename on underscores, lower-case the first segment and capitalise the
first letter of each later segment (lower-casing its remainder). -/
def generateImageImportName (filename : String) : String :=
  let baseName := stripImageExt filename
  match jsSplit "_" baseName with
  | [] => ""
  | p0 :: rest => lowerStr p0 ++ joinSep "" (rest.map capFirstLowerRest)

/-- The sanitized-filename lookup of `fixHtmlImagePath` (exact key first,
then, for a path with a leading slash, the key without the slash; empty
values count as missing, as in the JavaScript truthiness checks). -/
def sanitizedHit (m : List (String × String)) (src : String) : Option String :=
  match truthyLookup m src with
  | some f => some f
  | none =>
    if jsStartsWith src "/" then truthyLookup m (String.mk (src.data.drop 1))
    else none

/-- The function `fixHtmlImagePath`: convert a `src` value into an import-variable JSX
expression (registering the import), a quoted relative path, or the original
value.  Returns the new value together with the updated module state. -/
def fixHtmlImagePath (g : GState) (src : String) : String × GState :=
  if src == "" then (src, g)
  else if jsStartsWith src "data:" || jsStartsWith src "http://" ||
      jsStartsWith src "https://" then (src, g)
  else
    match sanitizedHit g.sanitizedFilenameMap src with
    | some sanitizedFilename =>
      if isImageFile sanitizedFilename then
        let importName := generateImageImportName sanitizedFilename
        ("\x7b" ++ importName ++ "\x7d",
         { g with imageImportsMap := assocSet g.imageImportsMap sanitizedFilename importName })
      else
        ("\"./images-flat/" ++ sanitizedFilename ++ "\"", g)
    | none =>
      let filename :=
        if jsStartsWith src "/" then lastElem (jsSplit "/" src)
        else if jsIncludes src "images-flat/" then lastElem (jsSplit "images-flat/" src)
        else lastElem (jsSplit "/" src)
      if filename != "" && isImageFile filename then
        let importName := generateImageImportName filename
        ("\x7b" ++ importName ++ "\x7d",
         { g with imageImportsMap := assocSet g.imageImportsMap filename importName })
      else (src, g)

/-- One generated import statement line. -/
def imageImportLine (entry : String × String) : String :=
  "import " ++ entry.2 ++ " from \x27./images-flat/" ++ entry.1 ++ "\x27;"

/-- The function `getImageImports`: the import statements of all registered images, one per
unique filename, in first-seen order. -/
def getImageImports (g : GState) : String :=
  if g.imageImportsMap.length == 0 then ""
  else joinSep "\n" (g.imageImportsMap.map imageImportLine)

/-- The function `generateCSSFromVars`: serialise the CSS custom-property table as CSS
class blocks. -/
def generateCSSFromVars (m : List (String × List (String × String))) : String :=
  joinSep "\n\n" (m.map (fun cv =>
    "." ++ cv.1 ++ " \x7b\n" ++
      joinSep "\n" (cv.2.map (fun p => "  " ++ p.1 ++ ": " ++ p.2 ++ ";")) ++ "\n\x7d"))

/-! ## A model of the JavaScript `JSON` builtin

`convertAttributes` round-trips `data-*` attribute values through
`JSON.parse`/`JSON.stringify`.  These are runtime builtins, not repository
code; they are modelled here by a small JSON parser and serialiser.  Numbers
keep their source lexeme (JavaScript re-serialisation normalises some numeric
forms; no verified claim depends on that). -/

inductive Json where
  | jnull : Json
  | jbool : Bool → Json
  | jnum : String → Json
  | jstr : String → Json
  | jarr : List Json → Json
  | jobj : List (String × Json) → Json
deriving Repr

/-- JSON insignificant whitespace. -/
def jsonSkipWs (s : List Char) : List Char :=
  s.dropWhile (fun c => c == ' ' || c == '\t' || c == '\n' || c == '\r')

/-- Hexadecimal digit value. -/
def hexVal (c : Char) : Option Nat :=
  if c.isDigit then some (c.toNat - 48)
  else if 'a' ≤ c && c ≤ 'f' then some (c.toNat - 87)
  else if 'A' ≤ c && c ≤ 'F' then some (c.toNat - 55)
  else none

/-- Four hexadecimal digits. -/
def hex4 : List Char → Option (Nat × List Char)
  | a :: b :: c :: d :: rest =>
    match hexVal a, hexVal b, hexVal c, hexVal d with
    | some x, some y, some z, some w => some (((x * 16 + y) * 16 + z) * 16 + w, rest)
    | _, _, _, _ => none
  | _ => none

/-- JSON string body parser (called after the opening quote), fuelled. -/
def parseJsonString : Nat → List Char → Option (String × List Char)
  | 0, _ => none
  | _ + 1, [] => none
  | n + 1, c :: cs =>
    if c == '"' then some ("", cs)
    else if c == '\\' then
      match cs with
      | '"' :: r => (parseJsonString n r).map (fun p => (String.mk ('"' :: p.1.data), p.2))
      | '\\' :: r => (parseJsonString n r).map (fun p => (String.mk ('\\' :: p.1.data), p.2))
      | '/' :: r => (parseJsonString n r).map (fun p => (String.mk ('/' :: p.1.data), p.2))
      | 'b' :: r => (parseJsonString n r).map (fun p => (String.mk ('\x08' :: p.1.data), p.2))
      | 'f' :: r => (parseJsonString n r).map (fun p => (String.mk ('\x0c' :: p.1.data), p.2))
      | 'n' :: r => (parseJsonString n r).map (fun p => (String.mk ('\n' :: p.1.data), p.2))
      | 'r' :: r => (parseJsonString n r).map (fun p => (String.mk ('\r' :: p.1.data), p.2))
      | 't' :: r => (parseJsonString n r).map (fun p => (String.mk ('\t' :: p.1.data), p.2))
      | 'u' :: r =>
        match hex4 r with
        | some (v, r2) =>
          if 0xd800 ≤ v && v ≤ 0xdbff then
            match r2 with
            | '\\' :: 'u' :: r3 =>
              match hex4 r3 with
              | some (w, r4) =>
                if 0xdc00 ≤ w && w ≤ 0xdfff then
                  let cp := 0x10000 + (v - 0xd800) * 0x400 + (w - 0xdc00)
                  (parseJsonString n r4).map (fun p => (String.mk (Char.ofNat cp :: p.1.data), p.2))
                else none
              | none => none
            | _ => none
          else if 0xdc00 ≤ v && v ≤ 0xdfff then none
          else (parseJsonString n r2).map (fun p => (String.mk (Char.ofNat v :: p.1.data), p.2))
        | none => none
      | _ => none
    else if c.toNat < 32 then none
    else (parseJsonString n cs).map (fun p => (String.mk (c :: p.1.data), p.2))

/-- JSON number lexer, returning the raw lexeme. -/
def parseJsonNumber (s : List Char) : Option (String × List Char) :=
  let (sign, s1) := match s with
    | '-' :: r => (['-'], r)
    | _ => ([], s)
  match s1 with
  | '0' :: r =>
    match r with
    | d :: _ =>
      if d.isDigit then none
      else some ((sign ++ ['0']), r) |>.bind (fun p => jsonNumTail p.1 p.2)
    | [] => some (String.mk (sign ++ ['0']), [])
  | d :: _ =>
    if d.isDigit then
      let digits := s1.takeWhile Char.isDigit
      jsonNumTail (sign ++ digits) (s1.drop digits.length)
    else none
  | [] => none
where
  /-- Optional fraction and exponent, then finish the lexeme. -/
  jsonNumTail (acc : List Char) (r : List Char) : Option (String × List Char) :=
    let (acc, r) := match r with
      | '.' :: r2 =>
        let frac := r2.takeWhile Char.isDigit
        if frac.isEmpty then ([], [])
        else (acc ++ '.' :: frac, r2.drop frac.length)
      | _ => (acc, r)
    if acc.isEmpty then none
    else
      match r with
      | e :: r2 =>
        if e == 'e' || e == 'E' then
          let (es, r3) := match r2 with
            | '+' :: r4 => (['+'], r4)
            | '-' :: r4 => (['-'], r4)
            | _ => ([], r2)
          let ds := r3.takeWhile Char.isDigit
          if ds.isEmpty then none
          else some (String.mk (acc ++ e :: es ++ ds), r3.drop ds.length)
        else some (String.mk acc, e :: r2)
      | [] => some (String.mk acc, [])

/-- Resolve duplicate JSON object keys the way JavaScript object construction
does: first occurrence keeps the position, the last value wins. -/
def objAssign (ms : List (String × Json)) : List (String × Json) :=
  ms.foldl (fun m kv => assocSet m kv.1 kv.2) []

/-- JSON value parser, fuelled (fuel bounds the nesting consumed); array and
object continuations re-enter the parser on the remaining input with the
bracket re-inserted, rejecting trailing commas. -/
def parseJsonValue : Nat → List Char → Option (Json × List Char)
  | 0, _ => none
  | n + 1, s0 =>
    let s := jsonSkipWs s0
    match s with
    | 'n' :: 'u' :: 'l' :: 'l' :: rest => some (.jnull, rest)
    | 't' :: 'r' :: 'u' :: 'e' :: rest => some (.jbool true, rest)
    | 'f' :: 'a' :: 'l' :: 's' :: 'e' :: rest => some (.jbool false, rest)
    | '"' :: rest => (parseJsonString rest.length rest).map (fun p => (Json.jstr p.1, p.2))
    | '[' :: rest =>
      let r1 := jsonSkipWs rest
      match r1 with
      | ']' :: r2 => some (.jarr [], r2)
      | _ =>
        match parseJsonValue n r1 with
        | some (v, r2) =>
          match jsonSkipWs r2 with
          | ',' :: r3 =>
            let r3 := jsonSkipWs r3
            match r3 with
            | ']' :: _ => none
            | _ =>
              match parseJsonValue n ('[' :: r3) with
              | some (Json.jarr vs, r4) => some (.jarr (v :: vs), r4)
              | _ => none
          | ']' :: r3 => some (.jarr [v], r3)
          | _ => none
        | none => none
    | '\x7b' :: rest =>
      let r1 := jsonSkipWs rest
      match r1 with
      | '\x7d' :: r2 => some (.jobj [], r2)
      | '"' :: rk =>
        match parseJsonString rk.length rk with
        | some (key, r2) =>
          match jsonSkipWs r2 with
          | ':' :: r3 =>
            match parseJsonValue n r3 with
            | some (v, r4) =>
              match jsonSkipWs r4 with
              | ',' :: r5 =>
                let r5 := jsonSkipWs r5
                match r5 with
                | '"' :: _ =>
                  match parseJsonValue n ('\x7b' :: r5) with
                  | some (Json.jobj ms, r6) =>
                    some (.jobj (objAssign ((key, v) :: ms)), r6)
                  | _ => none
                | _ => none
              | '\x7d' :: r5 => some (.jobj [(key, v)], r5)
              | _ => none
            | none => none
          | _ => none
        | none => none
      | _ => none
    | _ => (parseJsonNumber s).map (fun p => (Json.jnum p.1, p.2))

/-- Model of `JSON.parse`: parse a full value, allowing surrounding
whitespace only. -/
def jsonParse (s : String) : Option Json :=
  match parseJsonValue (s.data.length + 1) s.data with
  | some (v, rest) => if jsonSkipWs rest == [] then some v else none
  | none => none

/-- String escaping of `JSON.stringify`. -/
def jsonQuoteGo : List Char → List Char
  | [] => []
  | c :: cs =>
    (if c == '"' then ['\\', '"']
     else if c == '\\' then ['\\', '\\']
     else if c == '\x08' then ['\\', 'b']
     else if c == '\x0c' then ['\\', 'f']
     else if c == '\n' then ['\\', 'n']
     else if c == '\r' then ['\\', 'r']
     else if c == '\t' then ['\\', 't']
     else if c.toNat < 32 then
       '\\' :: 'u' :: '0' :: '0' ::
         [(Nat.digitChar (c.toNat / 16)), (Nat.digitChar (c.toNat % 16))]
     else [c]) ++ jsonQuoteGo cs

/-- Model of `JSON.stringify` on strings. -/
def jsonQuote (s : String) : String := String.mk ('"' :: jsonQuoteGo s.data ++ ['"'])

/-- Model of `JSON.stringify` (compact form, as called with one argument),
fuelled on the nesting depth; a parsed value's depth is bounded by the length
of the string it was parsed from, so the fuel used below never runs out. -/
def jsonStringifyF : Nat → Json → String
  | 0, _ => ""
  | _ + 1, .jnull => "null"
  | _ + 1, .jbool true => "true"
  | _ + 1, .jbool false => "false"
  | _ + 1, .jnum raw => raw
  | _ + 1, .jstr s => jsonQuote s
  | n + 1, .jarr vs => "[" ++ joinSep "," (vs.map (jsonStringifyF n)) ++ "]"
  | n + 1, .jobj ms =>
    "\x7b" ++
      joinSep "," (ms.map (fun kv => jsonQuote kv.1 ++ ":" ++ jsonStringifyF n kv.2)) ++
      "\x7d"

/-- The `data-*` attribute value transformation of `convertAttributes`:
JSON round-trip with entity-quoted double quotes, falling back to the raw
string on parse failure. -/
def dataAttrValue (value : String) : String :=
  match jsonParse value with
  | some parsed =>
    jsReplaceAll "\"" "&quot;" (jsonStringifyF (value.data.length + 1) parsed)
  | none => jsReplaceAll "\"" "&quot;" value

/-! ## Attribute conversion -/

/-- JavaScript truthiness of the `existingClass` variable (`null` and the
empty string are falsy). -/
def ecTruthy : Option String → Bool
  | some s => s != ""
  | none => false

/-- The `jsxKey` computation of `convertAttributes`: namespaced attributes,
the rename table, event handlers, generic hyphen camel-casing, or the
original key, in that order. -/
def jsxKeyFor (key keyLower : String) : String :=
  if hasChar ':' key then
    let parts := jsSplit ":" key
    let nsPart := parts.getD 0 ""
    let attrPart := parts.getD 1 ""
    if lowerStr nsPart == "xmlns" then "xmlns" ++ capitalizeFirst attrPart
    else nsPart ++ capitalizeFirst attrPart
  else
    match attributeRenameMap.lookup keyLower with
    | some renamed => renamed
    | none =>
      if jsStartsWith keyLower "on" then toJSXEventName keyLower
      else if hasChar '-' keyLower then camelCaseHyphen keyLower
      else key

/-- One iteration of the `convertAttributes` loop over `[key, value]`.
The accumulator carries the JSX string built so far, the pending
`existingClass`, and the module state. -/
def convertAttributesStep (acc : String × Option String × GState) (kv : String × String) :
    String × Option String × GState :=
  let (jsx, existingClass, g) := acc
  let (key, value) := kv
  let keyLower := lowerStr key
  if value == "" || value == "\x7b\x7d" || value == "[]" || value == "null" then acc
  else if keyLower == "class" || keyLower == "classname" then
    (jsx, some (jsTrim value), g)
  else if keyLower == "style" then
    let (styleString, cssVars) := convertStyle value
    let jsx := match styleString with
      | some ss => jsx ++ " style=" ++ ss
      | none => jsx
    if cssVars.length > 0 then
      let counter := g.customClassCounter + 1
      let customClass := "custom-var-" ++ toString counter
      let g := { g with
        customClassCounter := counter,
        cssVarMap := assocSet g.cssVarMap customClass cssVars }
      let existingClass := some
        (if ecTruthy existingClass then (existingClass.getD "") ++ " " ++ customClass
         else customClass)
      (jsx, existingClass, g)
    else (jsx, existingClass, g)
  else
    let jsxKey := jsxKeyFor key keyLower
    if keyLower == "data-props" || jsStartsWith keyLower "data-" then
      (jsx ++ " " ++ jsxKey ++ "=\"" ++ dataAttrValue value ++ "\"", existingClass, g)
    else
      let (attributeValue, g) :=
        if keyLower == "src" then fixHtmlImagePath g value else (value, g)
      if jsStartsWith attributeValue "\x7b" && jsEndsWith attributeValue "\x7d" then
        (jsx ++ " " ++ jsxKey ++ "=" ++ attributeValue, existingClass, g)
      else if booleanAttributes.contains keyLower then
        if value == "" || value == keyLower then
          (jsx ++ " " ++ jsxKey ++ "=\x7btrue\x7d", existingClass, g)
        else if value == "false" then
          (jsx ++ " " ++ jsxKey ++ "=\x7bfalse\x7d", existingClass, g)
        else if isBooleanValue value then
          (jsx ++ " " ++ jsxKey ++ "=\x7b" ++ lowerStr value ++ "\x7d", existingClass, g)
        else
          (jsx ++ " " ++ jsxKey ++ "=\"" ++ attributeValue ++ "\"", existingClass, g)
      else
        (jsx ++ " " ++ jsxKey ++ "=\"" ++ jsReplaceAll "\"" "&quot;" attributeValue ++ "\"",
         existingClass, g)

/-- The function `convertAttributes`: fold the loop body over the attribute entries and
append the single merged `className` at the end when truthy. -/
def convertAttributes (g : GState) (attrs : List (String × String)) : String × GState :=
  let (jsx, existingClass, g) := attrs.foldl convertAttributesStep ("", none, g)
  (if ecTruthy existingClass then
      jsx ++ " className=\"" ++ existingClass.getD "" ++ "\""
    else jsx,
   g)

/-! ## The event-driven conversion pass -/

/-- One event of the SAX-style tokenizer feeding `convertHTMLtoJSX`'s
callbacks. -/
inductive HtmlEvent where
  | opentag : String → List (String × String) → HtmlEvent
  | text : String → HtmlEvent
  | closetag : String → HtmlEvent
  | comment : String → HtmlEvent

/-- The per-call parse context of `convertHTMLtoJSX` (its local variables). -/
structure PState where
  output : String
  stack : List (String × Bool)
  inBodyTag : Bool
  skipTag : Bool
  currentSkipTag : Option String
  depth : Int
  bodyTagFound : Bool
  outputBeforeBodyTag : String
  bodyAttributes : Option (List (String × String))
deriving DecidableEq, Repr

/-- The fresh parse context created by each call. -/
def initPState : PState :=
  { output := "", stack := [], inBodyTag := false, skipTag := false,
    currentSkipTag := none, depth := 0, bodyTagFound := false,
    outputBeforeBodyTag := "", bodyAttributes := none }

/-- Drop everything up to and including the first colon, if any
(the lazy anchored replacement `name.replace(ns_re, '')`). -/
def dropThroughColon : List Char → Option (List Char)
  | [] => none
  | ':' :: rest => some rest
  | _ :: rest => dropThroughColon rest

/-- Tag-name normalisation: lower-case, then strip a namespace through the
first colon. -/
def stripTagNs (name : String) : String :=
  let lower := lowerStr name
  match dropThroughColon lower.data with
  | some rest => String.mk rest
  | none => lower

/-- Truthiness of `attributes.src`. -/
def attrTruthy (attrs : List (String × String)) (k : String) : Bool :=
  match attrs.lookup k with
  | some v => v != ""
  | none => false

/-- The `onopentag` callback. -/
def processOpenTag (g : GState) (p : PState) (name : String)
    (attrs0 : List (String × String)) : GState × PState :=
  let tagName := stripTagNs name
  let (attributes, g) :=
    if tagName == "img" && attrTruthy attrs0 "src" then
      let (fixed, g2) := fixHtmlImagePath g ((attrs0.lookup "src").getD "")
      (assocSet attrs0 "src" fixed, g2)
    else (attrs0, g)
  if skipTags.contains tagName then
    (g, { p with skipTag := true, currentSkipTag := some tagName, depth := 1 })
  else if p.skipTag then
    (g, { p with depth := p.depth + 1 })
  else if tagName == "body" then
    (g, { p with inBodyTag := true, bodyTagFound := true, bodyAttributes := some attributes })
  else if tagName == "style" then
    (g, { p with skipTag := true, currentSkipTag := some tagName, depth := 1 })
  else
    let isSelfClosing := selfClosingTags.contains tagName
    let (attrStr, g) := convertAttributes g attributes
    let tag := "<" ++ tagName ++ attrStr ++ (if isSelfClosing then " />" else ">")
    if !p.inBodyTag then
      (g, { p with outputBeforeBodyTag := p.outputBeforeBodyTag ++ tag })
    else
      (g, { p with output := p.output ++ tag, stack := (tagName, isSelfClosing) :: p.stack })

/-- The `ontext` callback. -/
def processText (p : PState) (text : String) : PState :=
  if p.inBodyTag && !p.skipTag && jsTrim text != "" then
    { p with output := p.output ++ escapeJSXText text }
  else if !p.inBodyTag && !p.skipTag && jsTrim text != "" then
    { p with outputBeforeBodyTag := p.outputBeforeBodyTag ++ escapeJSXText text }
  else p

/-- The `onclosetag` callback.  A mismatched closing tag inside the body only
logs a warning in the source, so it has no effect on the produced state
beyond the pop. -/
def processCloseTag (p : PState) (tagname : String) : PState :=
  let tag := stripTagNs tagname
  if p.skipTag && p.currentSkipTag == some tag then
    let d := p.depth - 1
    if d == 0 then { p with depth := d, skipTag := false, currentSkipTag := none }
    else { p with depth := d }
  else if p.skipTag then { p with depth := p.depth - 1 }
  else if tag == "body" then { p with inBodyTag := false }
  else if !p.inBodyTag then
    { p with outputBeforeBodyTag := p.outputBeforeBodyTag ++ "</" ++ tag ++ ">" }
  else
    match p.stack with
    | [] => p
    | (_, sc) :: rest =>
      if sc then { p with stack := rest }
      else { p with stack := rest, output := p.output ++ "</" ++ tag ++ ">" }

/-- Dispatch one tokenizer event to the matching callback (`oncomment`
ignores its argument). -/
def processEvent (s : GState × PState) (e : HtmlEvent) : GState × PState :=
  match e with
  | .opentag n a => processOpenTag s.1 s.2 n a
  | .text t => (s.1, processText s.2 t)
  | .closetag n => (s.1, processCloseTag s.2 n)
  | .comment _ => s

/-- The end-of-stream loop force-closing unclosed tags (everything still on
the stack except `body`/`html`). -/
def closeUnclosed : List (String × Bool) → String → String
  | [], out => out
  | (tag, _) :: rest, out =>
    closeUnclosed rest (if tag != "body" && tag != "html" then out ++ "</" ++ tag ++ ">" else out)

/-! ## The post-pass regex clean-up

The four chained `String.prototype.replace` calls with global patterns are
modelled as left-to-right scans: at each position the pattern is tried with
the backtracking semantics of the JavaScript regular-expression engine;
a match is replaced and scanning resumes after it. -/

/-- Match the inline-handler pattern (case-insensitive `on`, one or more
ASCII letters, then a double-quoted value) at the head of the input,
returning the replacement `onEvent={() => { handler }}` and the rest. -/
def tryEventMatch (s : List Char) : Option (List Char × List Char) :=
  match s with
  | c0 :: c1 :: rest =>
    if (c0 == 'o' || c0 == 'O') && (c1 == 'n' || c1 == 'N') then
      let ev := rest.takeWhile Char.isAlpha
      let r2 := rest.drop ev.length
      if ev.isEmpty then none
      else
        match r2 with
        | '=' :: '"' :: r3 =>
          let handler := r3.takeWhile (fun c => c != '"')
          match r3.drop handler.length with
          | '"' :: r5 =>
            let jsxEvent := 'o' :: 'n' :: (ev.headD 'a').toUpper :: ev.tail
            some (jsxEvent ++ "=\x7b() => \x7b ".data ++ handler ++ " \x7d\x7d".data, r5)
          | _ => none
        | _ => none
    else none
  | _ => none

/-- Letters-or-hyphen character class (case-insensitive `[a-z-]`). -/
def hyphenWordChar (c : Char) : Bool := c.isAlpha || c == '-'

/-- The split position the backtracking engine picks for
`([a-z-]+)-([a-z-]+)` over a full run: the right-most hyphen with a
non-empty group on each side. -/
def lastSplitIdx (run : List Char) : Option Nat :=
  ((List.range run.length).filter
    (fun i => run.getD i ' ' == '-' && decide (1 ≤ i) && decide (i + 1 < run.length))).getLast?

/-- Match the hyphenated-attribute pattern (whitespace, letters-or-hyphens
with an internal hyphen, then a double-quoted value) at the head of the
input.  A captured first group equal to `data` reproduces the source's
`return match` on an undefined `match` binding: a `ReferenceError`. -/
def tryHyphenAttrMatch (s : List Char) :
    Option (Except String (List Char × List Char)) :=
  match s with
  | c0 :: rest =>
    if isJsSpace c0 then
      let run := rest.takeWhile hyphenWordChar
      if run.isEmpty then none
      else
        match lastSplitIdx run with
        | none => none
        | some i =>
          match rest.drop run.length with
          | '=' :: '"' :: r3 =>
            let value := r3.takeWhile (fun c => c != '"')
            match r3.drop value.length with
            | '"' :: r5 =>
              let firstGroup := run.take i
              let secondGroup := run.drop (i + 1)
              if firstGroup == "data".data then
                some (.error "ReferenceError: match is not defined")
              else
                let camelCaseName := firstGroup ++
                  (match secondGroup with
                   | [] => []
                   | c :: cs => c.toUpper :: cs)
                some (.ok (' ' :: camelCaseName ++ '=' :: '"' :: value ++ ['"'], r5))
            | _ => none
          | _ => none
    else none
  | [] => none

/-- Match a stray ` class="` occurrence at the head of the input. -/
def tryClassMatch (s : List Char) : Option (List Char × List Char) :=
  match s with
  | c :: rest =>
    if isJsSpace c && leadsWith "class=\"".data rest then
      some (" className=\"".data, rest.drop 7)
    else none
  | [] => none

/-- The replacement for one boolean-attribute post-pass match: rename via the
table (or hyphen camel-casing) and switch to JSX boolean syntax. -/
def boolAttrRepl (attrChars : List Char) (valLower : String) : List Char :=
  let attr := String.mk attrChars
  let jsxAttr :=
    match attributeRenameMap.lookup (lowerStr attr) with
    | some renamed => renamed
    | none => if hasChar '-' attr then camelCaseHyphen attr else attr
  (" " ++ jsxAttr ++ "=\x7b" ++ valLower ++ "\x7d").data

/-- Try the boolean-attribute alternation in declaration order
(case-insensitively), requiring `="true"` or `="false"` after the name. -/
def tryBoolAlts : List String → List Char → Option (List Char × List Char)
  | [], _ => none
  | a :: as, rest =>
    let n := a.length
    let candidate := rest.take n
    if candidate.length == n && (candidate.map Char.toLower) == a.data then
      match rest.drop n with
      | '=' :: '"' :: r3 =>
        if (r3.take 4).map Char.toLower == "true".data && r3.getD 4 ' ' == '"' then
          some (boolAttrRepl candidate "true", r3.drop 5)
        else if (r3.take 5).map Char.toLower == "false".data && r3.getD 5 ' ' == '"' then
          some (boolAttrRepl candidate "false", r3.drop 6)
        else tryBoolAlts as rest
      | _ => tryBoolAlts as rest
    else tryBoolAlts as rest

/-- Match the boolean-attribute pattern at the head of the input. -/
def tryBoolAttrMatch (s : List Char) : Option (List Char × List Char) :=
  match s with
  | c0 :: rest =>
    if isJsSpace c0 then tryBoolAlts booleanAttributes rest else none
  | [] => none

/-- A global-replace scan over the input, fuelled by its length. -/
def scanPass (f : List Char → Option (List Char × List Char)) :
    Nat → List Char → List Char
  | 0, s => s
  | _ + 1, [] => []
  | n + 1, c :: cs =>
    match f (c :: cs) with
    | some (repl, rest) => repl ++ scanPass f n rest
    | none => c :: scanPass f n cs

/-- The scan for the hyphenated-attribute pass, which can raise. -/
def scanHyphenPass : Nat → List Char → Except String (List Char)
  | 0, s => .ok s
  | _ + 1, [] => .ok []
  | n + 1, c :: cs =>
    match tryHyphenAttrMatch (c :: cs) with
    | some (.error e) => .error e
    | some (.ok (repl, rest)) => (scanHyphenPass n rest).map (repl ++ ·)
    | none => (scanHyphenPass n cs).map (c :: ·)

/-- The whole post-pass: inline handlers, hyphen camel-casing (which can
raise a `ReferenceError`), stray `class=` fixing, boolean-attribute fixing,
in source order. -/
def postPass (out : String) : Except String String :=
  let s1 := scanPass tryEventMatch out.data.length out.data
  match scanHyphenPass s1.length s1 with
  | .error e => .error e
  | .ok s2 =>
    let s3 := scanPass tryClassMatch s2.length s2
    let s4 := scanPass tryBoolAttrMatch s3.length s3
    .ok (String.mk s4)

/-! ## The top-level conversion -/

/-- The function `convertHTMLtoJSX`, as a function of the module state and the tokenizer
event stream: reset the image imports, fold the callbacks over the events,
force-close unclosed tags, fall back to the pre-body buffer when no body tag
was found, run the post-pass (which can raise), and wrap in the body-attribute
container or a fragment. -/
def convertHTMLtoJSX (g0 : GState) (events : List HtmlEvent) :
    Except String (String × GState) :=
  let g1 := { g0 with imageImportsMap := [] }
  let gp := events.foldl processEvent (g1, initPState)
  let g := gp.1
  let p := gp.2
  let out1 := closeUnclosed p.stack p.output
  let out2 := if !p.bodyTagFound && p.outputBeforeBodyTag != "" then p.outputBeforeBodyTag
    else out1
  match postPass out2 with
  | .error e => .error e
  | .ok out =>
    match p.bodyAttributes with
    | some battrs =>
      let wg := convertAttributes g battrs
      .ok ("<div" ++ wg.1 ++ ">" ++ out ++ "</div>", wg.2)
    | none => .ok ("<>" ++ out ++ "</>", g)

/-! ## Fixtures and well-formedness predicates used by the theorems -/

/-- A fresh module state: zero counter, empty tables, empty filename map. -/
def gFresh : GState := ⟨0, [], [], []⟩

/-- Module state carrying the sanitized filename map of the image scenario. -/
def gLogo : GState := ⟨0, [], [], [("/front/assets/logo-abc.png", "_logo_abc.png")]⟩

/-- The module state after converting the image scenario. -/
def gLogoAfter : GState :=
  ⟨0, [], [("_logo_abc.png", "LogoAbc")], [("/front/assets/logo-abc.png", "_logo_abc.png")]⟩

/-- Module state whose sanitized filename map sends a source to a
non-image file. -/
def gTxt : GState := ⟨0, [], [], [("a", "b.txt")]⟩

/-- Module state for the image-import idempotence witness. -/
def gImgWit : GState := ⟨0, [], [], [("/a/b_c.png", "b_c.png")]⟩

/-- Whether an event is an opening `body` tag (after tag-name
normalisation). -/
def isBodyOpen : HtmlEvent → Bool
  | .opentag n _ => stripTagNs n == "body"
  | _ => false

/-- Properly nested content made of text, comments and non-void,
non-special elements: every opening tag is matched by a closing tag of the
same name, and no tag is a skip tag, `body`, `style`, or a void
(self-closing) element. -/
inductive BalancedEvs : List HtmlEvent → Prop where
  | nil : BalancedEvs []
  | text (t : String) (rest : List HtmlEvent) (h : BalancedEvs rest) :
      BalancedEvs (.text t :: rest)
  | comment (c : String) (rest : List HtmlEvent) (h : BalancedEvs rest) :
      BalancedEvs (.comment c :: rest)
  | node (n : String) (a : List (String × String)) (inner rest : List HtmlEvent)
      (hskip : skipTags.contains (stripTagNs n) = false)
      (hbody : (stripTagNs n == "body") = false)
      (hstyle : (stripTagNs n == "style") = false)
      (hvoid : selfClosingTags.contains (stripTagNs n) = false)
      (himg : (stripTagNs n == "img") = false)
      (hinner : BalancedEvs inner) (hrest : BalancedEvs rest) :
      BalancedEvs (.opentag n a :: (inner ++ .closetag n :: rest))

deriving instance DecidableEq for Except

/-! # Theorems -/

/-! ## String lemmas -/

/-- Concatenation of strings is associative. -/
theorem strAppendAssoc (a b c : String) : a ++ b ++ c = a ++ (b ++ c) := by
  cases a; cases b; cases c
  exact congrArg String.mk (List.append_assoc _ _ _)

/-- The empty string is a right unit. -/
theorem strAppendEmpty (a : String) : a ++ "" = a := by
  cases a
  exact congrArg String.mk (List.append_nil _)

/-- The empty string is a left unit. -/
theorem strEmptyAppend (a : String) : "" ++ a = a := by
  cases a
  rfl

/-! ## C1: discarding of script/style/head/html/noscript content -/

/-- C1.  The claim states that no tag, text node or attribute occurring inside a
`<script>`, `<style>`, `<head>`, `<html>` or `<noscript>` element ever appears
in the output, with a depth counter that increments on every opening tag seen
while discarding.  The code instead re-enters the `skipTags` branch when a
discard-triggering tag opens while discarding is already active, resetting
`depth` to `1` and retargeting `currentSkipTag`; when the nested trigger
closes, discarding ends early and the remainder of the outer discarded element
leaks into the output.  Evaluating the embedded converter on the event stream
of `<head><script></script><div>leak</div></head>` shows the text `leak` and
the tag `</head>` — both inside `<head>` — in the returned string.
-/
theorem C1_head_content_leaks :
    convertHTMLtoJSX gFresh
      [.opentag "head" [], .opentag "script" [], .closetag "script",
       .opentag "div" [], .text "leak", .closetag "div", .closetag "head"] =
      .ok ("<><div>leak</div></head></>", gFresh) ∧
    jsIncludes "<><div>leak</div></head></>" "leak" = true ∧
    jsIncludes "<><div>leak</div></head></>" "</head>" = true := by
  decide

/-! ## C2: the conversion core never throws -/

/-- C2.  The claim states that `convertHTMLtoJSX` returns a string normally for
every string input and never throws.  The hyphen-camel-casing post-pass
callback executes `return match` when its first captured group is `data`, but
no binding named `match` is in scope there (the parameter holding the matched
text is named `_`), so the call raises a `ReferenceError`.  Any output
containing whitespace followed by `data-` and a quoted value — here produced
by the body text `see data-x="1"` — triggers it.
-/
theorem C2_post_pass_throws :
    convertHTMLtoJSX gFresh
      [.opentag "body" [], .text "see data-x=\"1\"", .closetag "body"] =
      .error "ReferenceError: match is not defined" := by
  decide

/-! ## C3: boolean attribute coercion -/

/-- C3.  The claim states that a boolean-set attribute with the empty string as
value is emitted as `{true}`.  The empty-value skip at the top of the
`convertAttributes` loop drops every empty-valued attribute before the boolean
branch is reached (making that branch's own `value === ""` test dead code), so
`disabled=""` produces no output at all.  The remaining boolean idioms behave
as claimed: the attribute's own name and `true`/`false` (in any case) become
`{true}`/`{false}`, and any other value is emitted as a quoted string.
-/
theorem C3_empty_boolean_dropped :
    convertAttributes gFresh [("disabled", "")] = ("", gFresh) ∧
    (convertAttributes gFresh [("disabled", "false")]).1 = " disabled=\x7bfalse\x7d" ∧
    (convertAttributes gFresh [("disabled", "disabled")]).1 = " disabled=\x7btrue\x7d" ∧
    (convertAttributes gFresh [("disabled", "TrUe")]).1 = " disabled=\x7btrue\x7d" ∧
    (convertAttributes gFresh [("disabled", "other")]).1 = " disabled=\"other\"" := by
  decide

/-! ## C4: the image import scenario -/

/-- C4 counterexample.  The claim asserts the identifier `logoAbc` for the map
entry `/front/assets/logo-abc.png` → `_logo_abc.png`.  The sanitized filename
starts with an underscore, so splitting on `_` yields a leading empty segment;
the first (empty) segment is the one lower-cased, and `logo` — now a later
segment — is capitalised.  The generated identifier is `LogoAbc`, and neither
the output nor the import serialization mentions `logoAbc`.
-/
theorem C4_refuted :
    convertHTMLtoJSX gLogo
      [.opentag "img" [("src", "/front/assets/logo-abc.png")], .closetag "img"] =
      .ok ("<><img src=\x7bLogoAbc\x7d /></img></>", gLogoAfter) ∧
    jsIncludes "<><img src=\x7bLogoAbc\x7d /></img></>" "logoAbc" = false ∧
    jsIncludes (getImageImports gLogoAfter) "logoAbc" = false := by
  decide

/-- C4 as amended.  Converting `<img src="/front/assets/logo-abc.png">` with the
sanitized filename map `/front/assets/logo-abc.png` → `_logo_abc.png` emits
the tag `<img src={LogoAbc} />` and registers exactly the import line
`import LogoAbc from './images-flat/_logo_abc.png';`: identifier generation
strips the extension, splits the sanitized name on underscores, lower-cases
the first segment (here empty, because the sanitized name begins with an
underscore) and capitalises the remaining segments.
-/
theorem C4_amended_import_scenario :
    convertHTMLtoJSX gLogo
      [.opentag "img" [("src", "/front/assets/logo-abc.png")], .closetag "img"] =
      .ok ("<><img src=\x7bLogoAbc\x7d /></img></>", gLogoAfter) ∧
    jsIncludes "<><img src=\x7bLogoAbc\x7d /></img></>" "<img src=\x7bLogoAbc\x7d />" = true ∧
    getImageImports gLogoAfter =
      "import LogoAbc from \x27./images-flat/_logo_abc.png\x27;" ∧
    generateImageImportName "_logo_abc.png" = "LogoAbc" := by
  decide

/-! ## C5: wrapper element versus fragment -/

/-- C5 counterexample.  The claim asserts that a body tag with no attributes
yields a fragment.  Captured body attributes are an (empty) object, which is
truthy in JavaScript, so the wrapper branch is taken for every document whose
body tag was seen, attributes or not: `<body>hi</body>` produces
`<div>hi</div>`, not a fragment.
-/
theorem C5_refuted :
    convertHTMLtoJSX gFresh [.opentag "body" [], .text "hi", .closetag "body"] =
      .ok ("<div>hi</div>", gFresh) ∧
    jsStartsWith "<div>hi</div>" "<>" = false := by
  decide

/-! ## C6: documents without a body tag -/

/-- C6 counterexample.  The claim asserts that a no-body document's output equals
the conversion of the same content inside a body, wrapped in a fragment.  The
pre-body path appends a closing tag for *every* close event — including the
close events the tokenizer emits for void elements — while the in-body path
consults the tag stack and suppresses them.  For a bare `<img src="x">` the
no-body output is `<><img src="x" /></img></>`, whereas the same content
inside a body contributes only `<img src="x" />`.
-/
theorem C6_refuted :
    convertHTMLtoJSX gFresh [.opentag "img" [("src", "x")], .closetag "img"] =
      .ok ("<><img src=\"x\" /></img></>", gFresh) ∧
    (convertHTMLtoJSX gFresh
        [.opentag "body" [], .opentag "img" [("src", "x")], .closetag "img",
         .closetag "body"]).map Prod.fst =
      .ok ("<div><img src=\"x\" /></div>") ∧
    ("<><img src=\"x\" /></img></>" = "<>" ++ "<img src=\"x\" />" ++ "</>") = False := by
  refine ⟨by decide, by decide, ?_⟩
  simp only [eq_iff_iff, iff_false]
  decide

/-! ## C7: CSS custom properties and the merged class -/

/-- C7 counterexample.  The claim asserts that every tag whose style contains a
custom property gets a `className` containing the freshly minted
`custom-var-N` token, merged after any pre-existing class.  When the `class`
attribute appears *after* the `style` attribute, the class branch overwrites
the pending class list, so the minted token is dropped from the emitted
`className` even though the CSS table gained the `custom-var-1` entry.
-/
theorem C7_refuted :
    convertAttributes gFresh [("style", "--x:1px"), ("class", "b")] =
      (" className=\"b\"", ⟨1, [("custom-var-1", [("--x", "1px")])], [], []⟩) ∧
    jsIncludes " className=\"b\"" "custom-var" = false := by
  decide

/-! ## C8: image-import table idempotence -/

/-- C8 counterexample.  The claim asserts that every `img` src matching a key of
the sanitized filename map is emitted as a `{identifier}` expression.  A map
entry whose sanitized filename has no image extension takes the non-image
fallback instead and is emitted as a quoted relative path.
-/
theorem C8_refuted :
    fixHtmlImagePath gTxt "a" = ("\"./images-flat/b.txt\"", gTxt) ∧
    jsStartsWith "\"./images-flat/b.txt\"" "\x7b" = false := by
  decide

/-! ## C9: data-* attribute renaming -/

/-- C9 counterexample.  The claim asserts that the hyphenated name of every
`data-*` attribute with a non-empty value is replaced by its camel-cased form
in the main pass.  The generic camel-casing only rewrites a hyphen followed by
a lowercase letter, so `data-1` is emitted unchanged: the original hyphenated
name survives in the main-pass output.
-/
theorem C9_refuted :
    convertAttributes gFresh [("data-1", "x")] = (" data-1=\"x\"", gFresh) ∧
    jsIncludes " data-1=\"x\"" "data-1" = true := by
  decide

/-! ## C10: process-wide custom-class counter -/

/-- C10 counterexample.  The claim asserts that for *any* input containing a style
attribute with a custom property, two consecutive calls return different
strings.  When the styled tag sits before a `<body>` tag, its output lands in
the pre-body buffer, which is discarded once the body is found: both calls
return the identical string `<div>hi</div>` even though each bumped the
process-wide counter.
-/
theorem C10_refuted :
    convertHTMLtoJSX gFresh
      [.opentag "div" [("style", "--x:1px")], .closetag "div",
       .opentag "body" [], .text "hi", .closetag "body"] =
      .ok ("<div>hi</div>", ⟨1, [("custom-var-1", [("--x", "1px")])], [], []⟩) ∧
    convertHTMLtoJSX ⟨1, [("custom-var-1", [("--x", "1px")])], [], []⟩
      [.opentag "div" [("style", "--x:1px")], .closetag "div",
       .opentag "body" [], .text "hi", .closetag "body"] =
      .ok ("<div>hi</div>",
        ⟨2, [("custom-var-1", [("--x", "1px")]), ("custom-var-2", [("--x", "1px")])], [], []⟩) := by
  decide

/-- C10 as amended.  `convertHTMLtoJSX` is not a function of its arguments alone:
when the tag carrying a custom-property style is emitted inside the body, two
consecutive calls with identical input and identical sanitized filename map
return different strings, because the `custom-var-N` counter is process-wide,
increases monotonically, and is never reset between calls (the CSS table also
accumulates across calls).
-/
theorem C10_amended_consecutive_calls_differ :
    convertHTMLtoJSX gFresh
      [.opentag "body" [], .opentag "div" [("style", "--x:1px")], .text "Hi",
       .closetag "div", .closetag "body"] =
      .ok ("<div><div className=\"custom-var-1\">Hi</div></div>",
        ⟨1, [("custom-var-1", [("--x", "1px")])], [], []⟩) ∧
    convertHTMLtoJSX ⟨1, [("custom-var-1", [("--x", "1px")])], [], []⟩
      [.opentag "body" [], .opentag "div" [("style", "--x:1px")], .text "Hi",
       .closetag "div", .closetag "body"] =
      .ok ("<div><div className=\"custom-var-2\">Hi</div></div>",
        ⟨2, [("custom-var-1", [("--x", "1px")]), ("custom-var-2", [("--x", "1px")])], [], []⟩) ∧
    ("<div><div className=\"custom-var-1\">Hi</div></div>" =
      "<div><div className=\"custom-var-2\">Hi</div></div>") = False := by
  refine ⟨by decide, by decide, ?_⟩
  simp only [eq_iff_iff, iff_false]
  decide

/-! ## Association-list lemmas for the image import table -/

/-- Setting the same key to the same value twice is the same as once. -/
theorem assocSet_idem {β : Type} (m : List (String × β)) (k : String) (v : β) :
    assocSet (assocSet m k v) k v = assocSet m k v := by
  induction m with
  | nil => simp [assocSet]
  | cons hd tl ih =>
    obtain ⟨k2, v2⟩ := hd
    cases h : (k2 == k) with
    | true => simp [assocSet, h]
    | false => simp [assocSet, h, ih]

/-- Entries whose key is absent are not produced by a key filter. -/
theorem filter_key_eq_nil {β : Type} (m : List (String × β)) (k : String)
    (h : k ∉ m.map Prod.fst) : m.filter (fun e => e.1 == k) = [] := by
  induction m with
  | nil => simp
  | cons hd tl ih =>
    obtain ⟨k2, v2⟩ := hd
    simp only [List.map_cons, List.mem_cons, not_or] at h
    have hk : (k2 == k) = false := by
      simp only [beq_eq_false_iff_ne]
      exact fun he => h.1 he.symm
    simp [List.filter, hk, ih h.2]

/-- The shape of `assocSet` on a matching head. -/
theorem assocSet_cons_hit {β : Type} (k2 : String) (v2 : β) (tl : List (String × β))
    (k : String) (v : β) (h : (k2 == k) = true) :
    assocSet ((k2, v2) :: tl) k v = (k2, v) :: tl := by
  simp [assocSet, h]

/-- The shape of `assocSet` on a non-matching head. -/
theorem assocSet_cons_miss {β : Type} (k2 : String) (v2 : β) (tl : List (String × β))
    (k : String) (v : β) (h : (k2 == k) = false) :
    assocSet ((k2, v2) :: tl) k v = (k2, v2) :: assocSet tl k v := by
  simp [assocSet, h]

/-- Every key of `assocSet m k v` is `k` or a key of `m`. -/
theorem assocSet_keys_sub {β : Type} (m : List (String × β)) (k : String) (v : β) :
    ∀ x ∈ (assocSet m k v).map Prod.fst, x = k ∨ x ∈ m.map Prod.fst := by
  induction m with
  | nil =>
    intro x hx
    simp only [assocSet, List.map_cons, List.map_nil, List.mem_singleton] at hx
    exact Or.inl hx
  | cons hd tl ih =>
    obtain ⟨k2, v2⟩ := hd
    intro x hx
    cases hk : (k2 == k) with
    | true =>
      rw [assocSet_cons_hit k2 v2 tl k v hk] at hx
      simp only [List.map_cons, List.mem_cons] at hx ⊢
      tauto
    | false =>
      rw [assocSet_cons_miss k2 v2 tl k v hk] at hx
      simp only [List.map_cons, List.mem_cons] at hx ⊢
      rcases hx with hx | hx
      · tauto
      · rcases ih x hx with hx | hx <;> tauto

/-- The operation `assocSet` preserves key uniqueness. -/
theorem assocSet_keys_nodup {β : Type} (m : List (String × β)) (k : String) (v : β)
    (h : (m.map Prod.fst).Nodup) : ((assocSet m k v).map Prod.fst).Nodup := by
  induction m with
  | nil => simp [assocSet]
  | cons hd tl ih =>
    obtain ⟨k2, v2⟩ := hd
    simp only [List.map_cons, List.nodup_cons] at h
    cases hk : (k2 == k) with
    | true =>
      rw [assocSet_cons_hit k2 v2 tl k v hk]
      simp only [List.map_cons, List.nodup_cons]
      exact ⟨h.1, h.2⟩
    | false =>
      have hne : k2 ≠ k := fun he => by simp [he] at hk
      rw [assocSet_cons_miss k2 v2 tl k v hk]
      simp only [List.map_cons, List.nodup_cons]
      refine ⟨fun hmem => ?_, ih h.2⟩
      rcases assocSet_keys_sub tl k v k2 hmem with he | he
      · exact hne he
      · exact h.1 he

/-- On a table with unique keys, `assocSet` leaves exactly one entry with the
given key. -/
theorem assocSet_count_one {β : Type} (m : List (String × β)) (k : String) (v : β)
    (h : (m.map Prod.fst).Nodup) :
    ((assocSet m k v).filter (fun e => e.1 == k)).length = 1 := by
  induction m with
  | nil => simp [assocSet]
  | cons hd tl ih =>
    obtain ⟨k2, v2⟩ := hd
    simp only [List.map_cons, List.nodup_cons] at h
    cases hk : (k2 == k) with
    | true =>
      have he : k2 = k := by simpa using hk
      rw [assocSet_cons_hit k2 v2 tl k v hk, List.filter_cons]
      simp only [he, beq_self_eq_true, if_true]
      rw [show tl.filter (fun e => e.1 == k) = [] from ?_]
      · simp
      · exact filter_key_eq_nil tl k (he ▸ h.1)
    | false =>
      rw [assocSet_cons_miss k2 v2 tl k v hk, List.filter_cons]
      simp only [hk, if_false, Bool.false_eq_true]
      exact ih h.2

/-! ## C8: the amended idempotence statement -/

/-- C8 as amended.  For every `src` that is non-empty and not a `data:`/`http(s)`
URL, whose sanitized-filename lookup (with or without the leading slash) hits
a filename with an image extension, `fixHtmlImagePath` returns the JSX
expression `{identifier}` and registers the filename; the registration is
idempotent — a second resolution of the same `src` returns the same
identifier and leaves the table unchanged — and on a table with unique keys
the filename occupies exactly one entry (so exactly one import line is
serialized for it), keys staying unique.
-/
theorem C8_image_import_idempotent (g : GState) (src f : String)
    (hne : (src == "") = false)
    (hdata : jsStartsWith src "data:" = false)
    (hhttp : jsStartsWith src "http://" = false)
    (hhttps : jsStartsWith src "https://" = false)
    (hhit : sanitizedHit g.sanitizedFilenameMap src = some f)
    (hext : isImageFile f = true)
    (hnodup : (g.imageImportsMap.map Prod.fst).Nodup) :
    fixHtmlImagePath g src =
      ("\x7b" ++ generateImageImportName f ++ "\x7d",
       { g with imageImportsMap := assocSet g.imageImportsMap f (generateImageImportName f) }) ∧
    fixHtmlImagePath
        { g with imageImportsMap := assocSet g.imageImportsMap f (generateImageImportName f) }
        src =
      ("\x7b" ++ generateImageImportName f ++ "\x7d",
       { g with imageImportsMap := assocSet g.imageImportsMap f (generateImageImportName f) }) ∧
    ((assocSet g.imageImportsMap f (generateImageImportName f)).filter
        (fun e => e.1 == f)).length = 1 ∧
    ((assocSet g.imageImportsMap f (generateImageImportName f)).map Prod.fst).Nodup := by
  refine ⟨?_, ?_, assocSet_count_one _ _ _ hnodup, assocSet_keys_nodup _ _ _ hnodup⟩
  · simp [fixHtmlImagePath, hne, hdata, hhttp, hhttps, hhit, hext]
  · simp [fixHtmlImagePath, hne, hdata, hhttp, hhttps, hhit, hext, assocSet_idem]

/-- C8 witness: the amended statement at the sanitized map
`/a/b_c.png` → `b_c.png` on a fresh table.
-/
theorem C8_image_import_idempotent_witness :
    fixHtmlImagePath gImgWit "/a/b_c.png" =
      ("\x7bbC\x7d", ⟨0, [], [("b_c.png", "bC")], [("/a/b_c.png", "b_c.png")]⟩) ∧
    fixHtmlImagePath ⟨0, [], [("b_c.png", "bC")], [("/a/b_c.png", "b_c.png")]⟩ "/a/b_c.png" =
      ("\x7bbC\x7d", ⟨0, [], [("b_c.png", "bC")], [("/a/b_c.png", "b_c.png")]⟩) ∧
    (([("b_c.png", "bC")] : List (String × String)).filter
        (fun e => e.1 == "b_c.png")).length = 1 := by
  obtain ⟨h1, h2, h3, _⟩ := C8_image_import_idempotent gImgWit "/a/b_c.png" "b_c.png"
    (by decide) (by decide) (by decide) (by decide) (by decide) (by decide) (by decide)
  exact ⟨h1, h2, h3⟩

/-! ## C9: the amended data-* renaming statement -/

/-- A successful `leadsWith` exposes the matched initial run. -/
theorem leadsWith_true {p l : List Char} (h : leadsWith p l = true) :
    ∃ rest, l = p ++ rest := by
  induction p generalizing l with
  | nil => exact ⟨l, rfl⟩
  | cons c cs ih =>
    cases l with
    | nil => simp [leadsWith] at h
    | cons d ds =>
      simp only [leadsWith, Bool.and_eq_true, beq_iff_eq] at h
      obtain ⟨rest, hrest⟩ := ih h.2
      exact ⟨rest, by rw [h.1, hrest]; rfl⟩

/-- A string whose characters start with `data-` differs from any string that
does not start with `data-`. -/
theorem ne_of_data_head {s : String} {rest : List Char} (t : String)
    (hs : s.data = 'd' :: 'a' :: 't' :: 'a' :: '-' :: rest)
    (ht : jsStartsWith t "data-" = false) : (s == t) = false := by
  rw [beq_eq_false_iff_ne]
  intro he
  rw [he] at hs
  have hT : jsStartsWith t "data-" = true := by
    simp only [jsStartsWith, hs]
    simp [leadsWith]
  rw [hT] at ht
  cases ht

/-- A table without `data-*` keys never resolves a `data-*` name. -/
theorem lookup_none_of_no_data (l : List (String × String)) (s : String)
    (hall : l.all (fun e => !(jsStartsWith e.1 "data-")) = true)
    (hs : jsStartsWith s "data-" = true) : l.lookup s = none := by
  induction l with
  | nil => rfl
  | cons e es ih =>
    simp only [List.all_cons, Bool.and_eq_true, Bool.not_eq_true'] at hall
    have hne : (s == e.1) = false := by
      rw [beq_eq_false_iff_ne]
      intro he
      rw [he] at hs
      rw [hs] at hall
      cases hall.1
    simp [List.lookup, hne, ih hall.2]

/-- C9 as amended.  Every attribute whose lower-cased name starts with `data-`
and contains no colon, with a value outside the skip set, is emitted as the
single pair `camel(name)="escapedValue"`: the name is the generic
hyphen-to-camelCase transform of the lower-cased name (so `data-props`
becomes `dataProps`, but a hyphen not followed by a lowercase letter
survives), and the value is JSON-round-tripped or raw-quoted with double
quotes entity-escaped.
-/
theorem C9_data_attr_camel_name (g : GState) (k v : String)
    (hd : jsStartsWith (lowerStr k) "data-" = true)
    (hc : hasChar ':' k = false)
    (hv1 : (v == "") = false) (hv2 : (v == "\x7b\x7d") = false)
    (hv3 : (v == "[]") = false) (hv4 : (v == "null") = false) :
    convertAttributes g [(k, v)] =
      (" " ++ camelCaseHyphen (lowerStr k) ++ "=\"" ++ dataAttrValue v ++ "\"", g) := by
  obtain ⟨rest, hrest⟩ := leadsWith_true (p := "data-".data) hd
  have hclass : (lowerStr k == "class") = false := ne_of_data_head _ hrest (by decide)
  have hclassname : (lowerStr k == "classname") = false := ne_of_data_head _ hrest (by decide)
  have hstyle : (lowerStr k == "style") = false := ne_of_data_head _ hrest (by decide)
  have hlookup : attributeRenameMap.lookup (lowerStr k) = none :=
    lookup_none_of_no_data _ _ (by decide) hd
  have hon : jsStartsWith (lowerStr k) "on" = false := by
    simp only [jsStartsWith, hrest]
    simp [leadsWith]
  have hhyph : hasChar '-' (lowerStr k) = true := by
    simp only [hasChar, hrest]
    simp [List.contains]
  have hstep : convertAttributesStep ("", none, g) (k, v) =
      (" " ++ camelCaseHyphen (lowerStr k) ++ "=\"" ++ dataAttrValue v ++ "\"", none, g) := by
    simp only [convertAttributesStep, jsxKeyFor, hv1, hv2, hv3, hv4, hclass, hclassname,
      hstyle, hc, hlookup, hon, hhyph, hd, Bool.or_self, Bool.or_false, Bool.false_or,
      Bool.or_true, if_false, if_true, Bool.false_eq_true]
    rfl
  simp only [convertAttributes, List.foldl, hstep]
  rfl

/-- C9 witness: a `data-props` attribute with an unparseable value is emitted as
`dataProps="x"`.
-/
theorem C9_data_attr_camel_name_witness :
    convertAttributes gFresh [("data-props", "x")] = (" dataProps=\"x\"", gFresh) := by
  have h := C9_data_attr_camel_name gFresh "data-props" "x"
    (by decide) (by decide) (by decide) (by decide) (by decide) (by decide)
  exact h.trans (by decide)

/-! ## C7: the amended custom-property statement -/

/-- The minted class name is never the empty string. -/
theorem customClassTruthy (n : Nat) : ecTruthy (some ("custom-var-" ++ toString n)) = true := rfl

/-- A merged class list (`existing ++ " " ++ minted`) is never empty. -/
theorem appendSpaceNe (a b : String) : a ++ " " ++ b ≠ "" := by
  obtain ⟨la⟩ := a
  obtain ⟨lb⟩ := b
  intro he
  have hd := congrArg String.data he
  simp [String.append] at hd

/-- Truthiness of a non-empty pending class. -/
theorem ecTruthy_of_ne {x : String} (h : x ≠ "") : ecTruthy (some x) = true := by
  have hb : (x == "") = false := beq_eq_false_iff_ne.mpr h
  simp [ecTruthy, bne, hb]

/-- C7 as amended.  For a tag whose attributes are a `class` (first) and a
`style` whose parsed declarations contain at least one custom property, the
emitted attribute string is exactly the style object (when regular
declarations exist) followed by one `className` that merges the trimmed
pre-existing class (when truthy) with the freshly minted `custom-var-N`
token, `N` being the incremented process-wide counter; the CSS
custom-property table gains exactly the entry for that token with the parsed
custom properties.
-/
theorem C7_custom_property_class_merge (g : GState) (ec s : String)
    (h : (convertStyle s).2 ≠ []) :
    convertAttributes g [("class", ec), ("style", s)] =
      ((match (convertStyle s).1 with
        | some ss => " style=" ++ ss
        | none => "") ++
       " className=\"" ++
       (if ec == "" || ec == "\x7b\x7d" || ec == "[]" || ec == "null" then
          "custom-var-" ++ toString (g.customClassCounter + 1)
        else if jsTrim ec == "" then
          "custom-var-" ++ toString (g.customClassCounter + 1)
        else jsTrim ec ++ " " ++ ("custom-var-" ++ toString (g.customClassCounter + 1))) ++
       "\"",
       { g with
           customClassCounter := g.customClassCounter + 1,
           cssVarMap := assocSet g.cssVarMap
             ("custom-var-" ++ toString (g.customClassCounter + 1)) (convertStyle s).2 }) := by
  have hs1 : (s == "") = false := by
    rw [beq_eq_false_iff_ne]; intro he; rw [he] at h; exact h (by decide)
  have hs2 : (s == "\x7b\x7d") = false := by
    rw [beq_eq_false_iff_ne]; intro he; rw [he] at h; exact h (by decide)
  have hs3 : (s == "[]") = false := by
    rw [beq_eq_false_iff_ne]; intro he; rw [he] at h; exact h (by decide)
  have hs4 : (s == "null") = false := by
    rw [beq_eq_false_iff_ne]; intro he; rw [he] at h; exact h (by decide)
  have hlen : 0 < (convertStyle s).2.length := List.length_pos.mpr h
  have hstep2 : ∀ (jsx : String) (eo : Option String),
      convertAttributesStep (jsx, eo, g) ("style", s) =
        (jsx ++ (match (convertStyle s).1 with
          | some ss => " style=" ++ ss
          | none => ""),
         some (if ecTruthy eo then
            (eo.getD "") ++ " " ++ ("custom-var-" ++ toString (g.customClassCounter + 1))
          else "custom-var-" ++ toString (g.customClassCounter + 1)),
         { g with
             customClassCounter := g.customClassCounter + 1,
             cssVarMap := assocSet g.cssVarMap
               ("custom-var-" ++ toString (g.customClassCounter + 1)) (convertStyle s).2 }) := by
    intro jsx eo
    simp only [convertAttributesStep, hs1, hs2, hs3, hs4, Bool.or_self, Bool.or_false,
      Bool.false_or, if_false, Bool.false_eq_true]
    rw [show (lowerStr "style" == "class") = false from by decide,
      show (lowerStr "style" == "classname") = false from by decide,
      show (lowerStr "style" == "style") = true from by decide]
    simp only [Bool.or_self, Bool.false_or, if_false, if_true, Bool.false_eq_true]
    rw [if_pos hlen]
    cases hcs : (convertStyle s).1 with
    | none => simp [hcs, strAppendEmpty]
    | some ss => simp [hcs, strAppendAssoc]
  by_cases hec : (ec == "" || ec == "\x7b\x7d" || ec == "[]" || ec == "null") = true
  · have hstep1 : convertAttributesStep ("", none, g) ("class", ec) = ("", none, g) := by
      simp only [convertAttributesStep, hec, if_true]
    simp only [convertAttributes, List.foldl, hstep1, hstep2, hec, if_true]
    rfl
  · have hecf : (ec == "" || ec == "\x7b\x7d" || ec == "[]" || ec == "null") = false :=
      Bool.not_eq_true _ ▸ (by simpa using hec)
    have hstep1 : convertAttributesStep ("", none, g) ("class", ec) =
        ("", some (jsTrim ec), g) := by
      simp only [convertAttributesStep, hecf, if_false, Bool.false_eq_true]
      rw [show (lowerStr "class" == "class") = true from by decide]
      simp
    simp only [convertAttributes, List.foldl, hstep1, hstep2, hecf, if_false,
      Bool.false_eq_true]
    by_cases het : (jsTrim ec == "") = true
    · have hin : ecTruthy (some (jsTrim ec)) = false := by simp [ecTruthy, bne, het]
      simp only [hin, Bool.false_eq_true, if_false, customClassTruthy, if_true,
        Option.getD_some, het, strEmptyAppend]
    · have hetb : (jsTrim ec == "") = false := Bool.not_eq_true _ ▸ (by simpa using het)
      have hin : ecTruthy (some (jsTrim ec)) = true := by simp [ecTruthy, bne, hetb]
      have hout : ecTruthy (some (jsTrim ec ++ " " ++
          ("custom-var-" ++ toString (g.customClassCounter + 1)))) = true :=
        ecTruthy_of_ne (appendSpaceNe _ _)
      simp only [hin, if_true, Option.getD_some, hout, hetb, Bool.false_eq_true, if_false,
        strEmptyAppend]

/-- C7 witness: `class="a b"` with `style="color:red;--x:1px"` on a fresh counter
yields the style object, `className="a b custom-var-1"`, and the table entry
`custom-var-1` → `--x: 1px`.
-/
theorem C7_custom_property_class_merge_witness :
    (convertStyle "color:red;--x:1px").2 ≠ [] ∧
    convertAttributes gFresh [("class", "a b"), ("style", "color:red;--x:1px")] =
      (" style=\x7b\x7b color: \x27red\x27 \x7d\x7d className=\"a b custom-var-1\"",
       ⟨1, [("custom-var-1", [("--x", "1px")])], [], []⟩) := by
  refine ⟨by decide, ?_⟩
  have h := C7_custom_property_class_merge gFresh "a b" "color:red;--x:1px" (by decide)
  exact h.trans (by decide)

/-! ## C5: the amended wrapper condition -/

/-- Any event other than an opening `body` tag leaves the captured body
attributes unchanged. -/
theorem processEvent_bodyAttributes (s : GState × PState) (e : HtmlEvent)
    (h : isBodyOpen e = false) :
    (processEvent s e).2.bodyAttributes = s.2.bodyAttributes := by
  obtain ⟨g, p⟩ := s
  cases e with
  | opentag n a =>
    have h' : (stripTagNs n == "body") = false := by simpa [isBodyOpen] using h
    simp only [processEvent, processOpenTag, h', Bool.false_eq_true, if_false]
    repeat' split
    all_goals rfl
  | text t =>
    simp only [processEvent, processText]
    repeat' split
    all_goals rfl
  | closetag n =>
    simp only [processEvent, processCloseTag]
    repeat' split
    all_goals rfl
  | comment c => rfl

/-- Folding a stream without body-open events preserves the captured body
attributes. -/
theorem foldl_bodyAttributes (evs : List HtmlEvent) :
    ∀ s : GState × PState, (∀ e ∈ evs, isBodyOpen e = false) →
      (evs.foldl processEvent s).2.bodyAttributes = s.2.bodyAttributes := by
  induction evs with
  | nil => intro s _; rfl
  | cons e es ih =>
    intro s h
    rw [List.foldl_cons,
      ih _ (fun e' he' => h e' (List.mem_cons_of_mem _ he'))]
    exact processEvent_bodyAttributes s e (h e (List.mem_cons_self _ _))

/-- C5 as amended.  The output is wrapped in the `<div>` container exactly when a
`body` tag occurs in the input, regardless of whether it carries attributes:
a stream without body-open events always produces a fragment `<>...</>`
(when conversion succeeds), and a body tag — here with arbitrary, possibly
empty, attributes — always produces the `<div ...>` wrapper carrying the
transformed body attributes.
-/
theorem C5_wrapper_iff_body_tag :
    (∀ (g : GState) (evs : List HtmlEvent) (r : String × GState),
      (∀ e ∈ evs, isBodyOpen e = false) →
      convertHTMLtoJSX g evs = .ok r → ∃ x, r.1 = "<>" ++ x ++ "</>") ∧
    (∀ (g : GState) (battrs : List (String × String)),
      ∃ w, (convertHTMLtoJSX g
          [.opentag "body" battrs, .text "hi", .closetag "body"]).map Prod.fst =
        .ok ("<div" ++ w ++ ">hi</div>")) := by
  constructor
  · intro g evs r hno hok
    have hba : (List.foldl processEvent
        ({ g with imageImportsMap := [] }, initPState) evs).2.bodyAttributes = none := by
      rw [foldl_bodyAttributes evs _ hno]
      rfl
    simp only [convertHTMLtoJSX, hba] at hok
    split at hok
    · exact absurd hok (by simp)
    · have hp := Except.ok.inj hok
      exact ⟨_, (congrArg Prod.fst hp).symm⟩
  · intro g battrs
    refine ⟨(convertAttributes { g with imageImportsMap := [] } battrs).1, ?_⟩
    have hrun : convertHTMLtoJSX g
        [.opentag "body" battrs, .text "hi", .closetag "body"] =
        .ok ("<div" ++ (convertAttributes { g with imageImportsMap := [] } battrs).1 ++
              ">" ++ "hi" ++ "</div>",
             (convertAttributes { g with imageImportsMap := [] } battrs).2) := rfl
    rw [hrun]
    simp only [Except.map, strAppendAssoc]
    rfl

/-- C5 witness: a body-free stream yields a fragment, and an attribute-carrying
body yields the `<div>` wrapper, at concrete inputs.
-/
theorem C5_wrapper_iff_body_tag_witness :
    (∃ x, ("<><div>hi</div></>", gFresh).1 = "<>" ++ x ++ "</>") ∧
    (∃ w, (convertHTMLtoJSX gFresh
        [.opentag "body" [("id", "app")], .text "hi", .closetag "body"]).map Prod.fst =
      .ok ("<div" ++ w ++ ">hi</div>")) := by
  constructor
  · exact C5_wrapper_iff_body_tag.1 gFresh
      [.opentag "div" [], .text "hi", .closetag "div"]
      ("<><div>hi</div></>", gFresh) (by decide) (by decide)
  · exact C5_wrapper_iff_body_tag.2 gFresh [("id", "app")]

/-! ## C6: pre-body and in-body runs agree on balanced content -/

/-- An ordinary (non-skip, non-body, non-style, non-void) opening tag in
pre-body position appends the converted tag to the pre-body buffer. -/
theorem processOpenTag_pre (g : GState) (p : PState) (n : String)
    (a : List (String × String))
    (hskip : skipTags.contains (stripTagNs n) = false)
    (hbody : (stripTagNs n == "body") = false)
    (hstyle : (stripTagNs n == "style") = false)
    (hvoid : selfClosingTags.contains (stripTagNs n) = false)
    (himg : (stripTagNs n == "img") = false)
    (hps : p.skipTag = false) (hpb : p.inBodyTag = false) :
    processEvent (g, p) (.opentag n a) =
      ((convertAttributes g a).2,
       { p with outputBeforeBodyTag := p.outputBeforeBodyTag ++
          ("<" ++ stripTagNs n ++ (convertAttributes g a).1 ++ ">") }) := by
  simp only [processEvent, processOpenTag, hskip, hbody, hstyle, hvoid, himg, hps, hpb,
    Bool.false_and, Bool.false_eq_true, if_false, Bool.not_false, if_true]

/-- The same opening tag inside the body appends to the main output and
pushes the tag. -/
theorem processOpenTag_body (g : GState) (p : PState) (n : String)
    (a : List (String × String))
    (hskip : skipTags.contains (stripTagNs n) = false)
    (hbody : (stripTagNs n == "body") = false)
    (hstyle : (stripTagNs n == "style") = false)
    (hvoid : selfClosingTags.contains (stripTagNs n) = false)
    (himg : (stripTagNs n == "img") = false)
    (hps : p.skipTag = false) (hpb : p.inBodyTag = true) :
    processEvent (g, p) (.opentag n a) =
      ((convertAttributes g a).2,
       { p with
          output := p.output ++
            ("<" ++ stripTagNs n ++ (convertAttributes g a).1 ++ ">"),
          stack := (stripTagNs n, false) :: p.stack }) := by
  simp only [processEvent, processOpenTag, hskip, hbody, hstyle, hvoid, himg, hps, hpb,
    Bool.false_and, Bool.false_eq_true, if_false, Bool.not_true, if_true]

/-- Text in pre-body position appends its escaped form (or nothing) to the
pre-body buffer. -/
theorem processText_pre (g : GState) (p : PState) (t : String)
    (hps : p.skipTag = false) (hpb : p.inBodyTag = false) :
    processEvent (g, p) (.text t) =
      (g, { p with outputBeforeBodyTag := p.outputBeforeBodyTag ++
        (if jsTrim t != "" then escapeJSXText t else "") }) := by
  have c1 : (p.inBodyTag && !p.skipTag && jsTrim t != "") = false := by
    rw [hpb]; rfl
  cases hc : (jsTrim t != "") with
  | true =>
    have c2 : (!p.inBodyTag && !p.skipTag && jsTrim t != "") = true := by
      rw [hpb, hps, hc]; rfl
    simp only [processEvent, processText, c1, c2, Bool.false_eq_true, if_false, if_true]
  | false =>
    have c2 : (!p.inBodyTag && !p.skipTag && jsTrim t != "") = false := by
      rw [hpb, hps, hc]; rfl
    simp only [processEvent, processText, c1, c2, Bool.false_eq_true, if_false]
    rw [strAppendEmpty]

/-- Text inside the body appends its escaped form (or nothing) to the main
output. -/
theorem processText_body (g : GState) (p : PState) (t : String)
    (hps : p.skipTag = false) (hpb : p.inBodyTag = true) :
    processEvent (g, p) (.text t) =
      (g, { p with output := p.output ++
        (if jsTrim t != "" then escapeJSXText t else "") }) := by
  cases hc : (jsTrim t != "") with
  | true =>
    have c1 : (p.inBodyTag && !p.skipTag && jsTrim t != "") = true := by
      rw [hpb, hps, hc]; rfl
    simp only [processEvent, processText, c1, if_true]
  | false =>
    have c1 : (p.inBodyTag && !p.skipTag && jsTrim t != "") = false := by
      rw [hc]; simp
    have c2 : (!p.inBodyTag && !p.skipTag && jsTrim t != "") = false := by
      rw [hpb]; rfl
    simp only [processEvent, processText, c1, c2, Bool.false_eq_true, if_false]
    rw [strAppendEmpty]

/-- A non-body closing tag in pre-body position appends its closing form to
the pre-body buffer. -/
theorem processCloseTag_pre (g : GState) (p : PState) (m : String)
    (hbody : (stripTagNs m == "body") = false)
    (hps : p.skipTag = false) (hpb : p.inBodyTag = false) :
    processEvent (g, p) (.closetag m) =
      (g, { p with outputBeforeBodyTag := p.outputBeforeBodyTag ++
        ("</" ++ stripTagNs m ++ ">") }) := by
  simp only [processEvent, processCloseTag, hps, hpb, hbody, Bool.false_and,
    Bool.false_eq_true, if_false, Bool.not_false, if_true]
  simp [strAppendAssoc]

/-- A non-body closing tag inside the body pops a non-self-closing stack
entry and emits the closing form. -/
theorem processCloseTag_body (g : GState) (p : PState) (m tg : String)
    (rest : List (String × Bool))
    (hbody : (stripTagNs m == "body") = false)
    (hps : p.skipTag = false) (hpb : p.inBodyTag = true)
    (hstack : p.stack = (tg, false) :: rest) :
    processEvent (g, p) (.closetag m) =
      (g, { p with
              stack := rest,
              output := p.output ++ ("</" ++ stripTagNs m ++ ">") }) := by
  simp only [processEvent, processCloseTag, hps, hpb, hbody, Bool.false_and,
    Bool.false_eq_true, if_false, Bool.not_true, hstack]
  simp [strAppendAssoc]

/-- On balanced content the pre-body run and the in-body run of the event
fold produce the same appended text and the same final module state, leaving
every other component of the parse context unchanged. -/
theorem balanced_runs (evs : List HtmlEvent) (h : BalancedEvs evs) :
    ∀ g : GState, ∃ (δ : String) (gf : GState),
      (∀ p : PState, p.skipTag = false → p.inBodyTag = false →
        evs.foldl processEvent (g, p) =
          (gf, { p with outputBeforeBodyTag := p.outputBeforeBodyTag ++ δ })) ∧
      (∀ p : PState, p.skipTag = false → p.inBodyTag = true →
        evs.foldl processEvent (g, p) =
          (gf, { p with output := p.output ++ δ })) := by
  induction h with
  | nil =>
    intro g
    refine ⟨"", g, ?_, ?_⟩ <;> intro p hps hpb <;> simp [strAppendEmpty]
  | text t rest hr ih =>
    intro g
    obtain ⟨δ, gf, hpre, hbody⟩ := ih g
    refine ⟨(if jsTrim t != "" then escapeJSXText t else "") ++ δ, gf, ?_, ?_⟩
    · intro p hps hpb
      rw [List.foldl_cons, processText_pre g p t hps hpb,
        hpre { p with outputBeforeBodyTag := p.outputBeforeBodyTag ++
          (if jsTrim t != "" then escapeJSXText t else "") } hps hpb]
      simp [strAppendAssoc]
    · intro p hps hpb
      rw [List.foldl_cons, processText_body g p t hps hpb,
        hbody { p with output := p.output ++
          (if jsTrim t != "" then escapeJSXText t else "") } hps hpb]
      simp [strAppendAssoc]
  | comment c rest hr ih =>
    intro g
    obtain ⟨δ, gf, hpre, hbody⟩ := ih g
    refine ⟨δ, gf, ?_, ?_⟩
    · intro p hps hpb
      rw [List.foldl_cons]
      exact hpre p hps hpb
    · intro p hps hpb
      rw [List.foldl_cons]
      exact hbody p hps hpb
  | node n a inner rest hskip hbody hstyle hvoid himg hinner hrest ihInner ihRest =>
    intro g
    obtain ⟨δi, gfi, hi_pre, hi_body⟩ := ihInner (convertAttributes g a).2
    obtain ⟨δr, gfr, hr_pre, hr_body⟩ := ihRest gfi
    refine ⟨("<" ++ stripTagNs n ++ (convertAttributes g a).1 ++ ">") ++ δi ++
      ("</" ++ stripTagNs n ++ ">") ++ δr, gfr, ?_, ?_⟩
    · intro p hps hpb
      rw [List.foldl_cons, processOpenTag_pre g p n a hskip hbody hstyle hvoid himg hps hpb,
        List.foldl_append]
      rw [hi_pre _ (by exact hps) (by exact hpb)]
      rw [List.foldl_cons]
      rw [processCloseTag_pre gfi _ n hbody (by exact hps) (by exact hpb)]
      rw [hr_pre _ (by exact hps) (by exact hpb)]
      simp [strAppendAssoc]
    · intro p hps hpb
      rw [List.foldl_cons, processOpenTag_body g p n a hskip hbody hstyle hvoid himg hps hpb,
        List.foldl_append]
      rw [hi_body _ (by exact hps) (by exact hpb)]
      rw [List.foldl_cons]
      rw [processCloseTag_body gfi _ n (stripTagNs n) p.stack hbody (by exact hps)
        (by exact hpb) (by exact rfl)]
      rw [hr_body _ (by exact hps) (by exact hpb)]
      simp [strAppendAssoc]

/-- The endgame of `convertHTMLtoJSX` as a function of the final parse
state reached by the event fold. -/
theorem convert_tail (g0 : GState) (evs : List HtmlEvent) (gf : GState) (p : PState)
    (hfold : List.foldl processEvent
      ({ g0 with imageImportsMap := [] }, initPState) evs = (gf, p)) :
    convertHTMLtoJSX g0 evs =
      match postPass (if !p.bodyTagFound && p.outputBeforeBodyTag != "" then
          p.outputBeforeBodyTag
        else closeUnclosed p.stack p.output) with
      | .error e => .error e
      | .ok out =>
        match p.bodyAttributes with
        | some battrs =>
          .ok ("<div" ++ (convertAttributes gf battrs).1 ++ ">" ++ out ++ "</div>",
               (convertAttributes gf battrs).2)
        | none => .ok ("<>" ++ out ++ "</>", gf) := by
  simp only [convertHTMLtoJSX, hfold]

/-- C6 as amended.  For balanced top-level content (properly nested non-void,
non-special elements, text and comments) without a `body` tag, the converter
returns the content's conversion wrapped in a fragment, and that content is
exactly what converting the same events inside a `<body>` produces (which
comes back wrapped in the `<div>` container); when the post-pass raises (the
`data-` defect of C2), both runs raise the identical error.
-/
theorem C6_amended_no_body_fragment (g : GState) (evs : List HtmlEvent)
    (h : BalancedEvs evs) :
    (∃ content,
      (convertHTMLtoJSX g evs).map Prod.fst = .ok ("<>" ++ content ++ "</>") ∧
      (convertHTMLtoJSX g
          (.opentag "body" [] :: (evs ++ [.closetag "body"]))).map Prod.fst =
        .ok ("<div>" ++ content ++ "</div>")) ∨
    (∃ e, convertHTMLtoJSX g evs = .error e ∧
      convertHTMLtoJSX g
          (.opentag "body" [] :: (evs ++ [.closetag "body"])) = .error e) := by
  obtain ⟨δ, gf, hpre, hbody⟩ := balanced_runs evs h { g with imageImportsMap := [] }
  have hsel : (if (δ != "") = true then δ else "") = δ := by
    cases hb : (δ != "") with
    | true => simp
    | false =>
      have hd : δ = "" := by simpa [bne] using hb
      simp [hd]
  have hfold1 := hpre initPState rfl rfl
  have e1 := convert_tail g evs gf _ hfold1
  simp only [initPState, strEmptyAppend, closeUnclosed, Bool.not_false, Bool.true_and] at e1
  rw [hsel] at e1
  have hfold2 : List.foldl processEvent ({ g with imageImportsMap := [] }, initPState)
      (.opentag "body" [] :: (evs ++ [.closetag "body"])) =
      (gf, { initPState with
              output := "" ++ δ, inBodyTag := false, bodyTagFound := true,
              bodyAttributes := some [] }) := by
    rw [List.foldl_cons]
    rw [show processEvent ({ g with imageImportsMap := [] }, initPState)
        (.opentag "body" []) =
      ({ g with imageImportsMap := [] },
       { initPState with
            inBodyTag := true,
            bodyTagFound := true,
            bodyAttributes := some [] }) from rfl]
    rw [List.foldl_append]
    rw [hbody _ (by exact rfl) (by exact rfl)]
    rw [List.foldl_cons, List.foldl_nil]
    rfl
  have e2 := convert_tail g _ gf _ hfold2
  simp only [initPState, strEmptyAppend, closeUnclosed, Bool.not_true, Bool.false_and,
    Bool.false_eq_true, if_false] at e2
  rw [show convertAttributes gf [] = ("", gf) from rfl] at e2
  cases hpp : postPass δ with
  | error e =>
    right
    refine ⟨e, ?_, ?_⟩
    · rw [e1, hpp]
    · rw [e2, hpp]
  | ok out =>
    left
    refine ⟨out, ?_, ?_⟩
    · rw [e1, hpp]
      rfl
    · rw [e2, hpp]
      simp only [Except.map]
      rw [show ("<div" : String) ++ "" ++ ">" = "<div>" from rfl]

/-- C6 witness: a balanced `<p>x</p>` stream, with no body tag, yields the
fragment `<><p>x</p></>`, matching the in-body conversion wrapped in the
container.
-/
theorem C6_amended_no_body_fragment_witness :
    (∃ content,
      (convertHTMLtoJSX gFresh
          [.opentag "p" [], .text "x", .closetag "p"]).map Prod.fst =
        .ok ("<>" ++ content ++ "</>") ∧
      (convertHTMLtoJSX gFresh
          (.opentag "body" [] :: ([.opentag "p" [], .text "x", .closetag "p"] ++
            [.closetag "body"]))).map Prod.fst =
        .ok ("<div>" ++ content ++ "</div>")) ∨
    (∃ e, convertHTMLtoJSX gFresh [.opentag "p" [], .text "x", .closetag "p"] = .error e ∧
      convertHTMLtoJSX gFresh
          (.opentag "body" [] :: ([.opentag "p" [], .text "x", .closetag "p"] ++
            [.closetag "body"])) = .error e) :=
  C6_amended_no_body_fragment gFresh [.opentag "p" [], .text "x", .closetag "p"]
    (BalancedEvs.node "p" [] [.text "x"] [] (by decide) (by decide) (by decide)
      (by decide) (by decide) (BalancedEvs.text "x" [] BalancedEvs.nil) BalancedEvs.nil)
